import Mathlib

/-!
Shallow embedding of the coc-spring-initializr extension core
(`src/DependencyManager.ts`, the wizard step handlers, and the
structural XML patcher `src/Utils/xml/index.ts`), with theorems
settling the specification claims about it.

Conventions:
* TypeScript `undefined`/`null` is modelled with `Option`.
* JavaScript truthiness of a string value (`undefined`, `null` and `""`
  are falsy) is modelled explicitly where the source relies on it.
* Thrown exceptions (`OperationCanceledError`, `UserError`) are modelled
  with `Except String`.
* Mutable state threaded through the wizard (the project metadata, the
  per-step default-input caches) is passed and returned explicitly.
-/

/-! ## Dependency selector (`src/DependencyManager.ts`) -/

/-- One catalog entry, `IDependency` from the model: unique id, display
name and group label. -/
structure IDependency where
  id : String
  name : String
  group : String
deriving DecidableEq, Repr

/-- `DependencyManager.toggleDependency`: if the id is already selected
(`indexOf(id) >= 0`) every occurrence is filtered out, otherwise the id
is pushed at the end of `selectedIds`. -/
def toggleDependency (selectedIds : List String) (id : String) : List String :=
  if id ∈ selectedIds then
    selectedIds.filter (fun x => x ≠ id)
  else
    selectedIds ++ [id]

/-- A quick-pick row as built by `getQuickPickItems`; `description` is
absent (`undefined`) on separator rows. -/
structure PickItem where
  label : String
  description : Option String
  itemType : String
  id : String
deriving DecidableEq, Repr

/-- `newSeparator` from `DependencyManager.ts`. -/
def newSeparator (name : String) : PickItem :=
  { label := name, description := none, itemType := "separator", id := name }

/-- The row pushed for an unselected dependency inside the grouping loop
of `getQuickPickItems`. -/
def unselItem (dep : IDependency) : PickItem :=
  { label := dep.name, description := some dep.group, itemType := "dependency", id := dep.id }

/-- The row pushed for a selected dependency. -/
def selItem (dep : IDependency) : PickItem :=
  { label := "(selected) " ++ dep.name, description := some dep.group
  , itemType := "dependency", id := dep.id }

/-- The grouping loop over `unselectedDeps` in `getQuickPickItems`:
`let group: string | undefined;` followed by
`if (group !== undefined && group !== dep.group) { group = dep.group; ret.push(newSeparator(group)); }`
and then the push of the dependency row.  The mutable `group` variable is
the first argument; it starts as `undefined` (`none`). -/
def unselLoop (group : Option String) : List IDependency → List PickItem
  | [] => []
  | dep :: rest =>
    if group ≠ none ∧ group ≠ some dep.group then
      newSeparator dep.group :: unselItem dep :: unselLoop (some dep.group) rest
    else
      unselItem dep :: unselLoop group rest

/-- The selection-relevant state of a `DependencyManager` instance.  The
`dict` built by `initialize` is recomputed from `dependencies` by
`dictLookup` (last write wins, entries with empty id are skipped by the
`if (dep.id)` guard). -/
structure DepManagerState where
  lastselected : Option String
  dependencies : List IDependency
  selectedIds : List String
deriving DecidableEq, Repr

/-- `this.dict[key]` after `initialize` populated it from
`this.dependencies`: the last entry with that (truthy) id wins. -/
def dictLookup (deps : List IDependency) (key : String) : Option IDependency :=
  (deps.filter (fun d => d.id ≠ "" ∧ d.id = key)).getLast?

/-- `getSelectedDependencies`: `selectedIds.map(id => dict[id]).filter(Boolean)`. -/
def getSelectedDependencies (s : DepManagerState) : List IDependency :=
  (s.selectedIds.map (dictLookup s.dependencies)).reduceOption

/-- `getUnselectedDependencies`: `dependencies.filter(dep => selectedIds.indexOf(dep.id) < 0)`. -/
def getUnselectedDependencies (s : DepManagerState) : List IDependency :=
  s.dependencies.filter (fun dep => dep.id ∉ s.selectedIds)

/-- The synthetic selection-summary row of `getQuickPickItems`. -/
def selectionSummaryItem (s : DepManagerState) : PickItem :=
  { description := some ""
  , id := String.intercalate "," s.selectedIds
  , itemType := "selection"
  , label := "Selected " ++ toString s.selectedIds.length ++ " dependenc"
      ++ (if s.selectedIds.length = 1 then "y" else "ies") }

/-- `genLastSelectedItem`: splits the persisted id list on commas, keeps
ids still present in the catalog, and produces the synthetic
"last used" row when any name survives. -/
def genLastSelectedItem (s : DepManagerState) (idList : String) : Option PickItem :=
  let availIdList := (idList.splitOn ",").filter (fun id => (dictLookup s.dependencies id).isSome)
  let availNameList := (availIdList.map (fun id => (dictLookup s.dependencies id).map IDependency.name)).reduceOption
  if availNameList.length ≠ 0 then
    some { description := some (String.intercalate ", " availNameList)
         , id := String.intercalate "," availIdList
         , itemType := "lastUsed"
         , label := "$(clock) Last used" }
  else
    none

/-- The pure part of `getQuickPickItems` (the lazy network `initialize`
is outside this model: the catalog is already loaded in the state).
Builds, in order: the optional "last used" row, the selection summary,
the selected portion with its "Selected" separator, and the unselected
portion produced by `unselLoop` starting from an unassigned group. -/
def getQuickPickItems (s : DepManagerState) (hasLastSelected : Bool) : List PickItem :=
  let part1 : List PickItem :=
    if s.selectedIds = [] then
      match hasLastSelected, s.lastselected with
      | true, some ls =>
        if ls ≠ "" then
          match genLastSelectedItem s ls with
          | some it => [it]
          | none => []
        else []
      | _, _ => []
    else []
  let part2 : List PickItem := [selectionSummaryItem s]
  let selectedDeps := getSelectedDependencies s
  let part3 : List PickItem :=
    if selectedDeps.length > 0 then
      newSeparator "Selected" :: selectedDeps.map selItem
    else []
  let unselectedDeps := getUnselectedDependencies s
  let part4 : List PickItem :=
    if unselectedDeps.length > 0 then unselLoop none unselectedDeps else []
  part1 ++ part2 ++ part3 ++ part4

/-! ## Wizard step chain (`src/handler/*.ts`, `src/handler/utils.ts`) -/

/-- Identity of a wizard step (the step singletons of the source). -/
inductive StepId where
  | serviceUrl
  | bootVersion
  | language
  | groupId
  | artifactId
  | packageName
  | packaging
  | javaVersion
  | dependencies
deriving DecidableEq, Repr

/-- Caller-supplied defaults (`IProjectMetadata.defaults`). -/
structure ProjectDefaults where
  language : Option String := none
  packaging : Option String := none
  groupId : Option String := none
  artifactId : Option String := none
  packageName : Option String := none
deriving DecidableEq, Repr

/-- The accumulating `IProjectMetadata` record, including the
`pickSteps` navigation stack of completed steps. -/
structure ProjectMetadata where
  pickSteps : List StepId := []
  defaults : ProjectDefaults := {}
  language : Option String := none
  packaging : Option String := none
  groupId : Option String := none
  artifactId : Option String := none
  packageName : Option String := none
  javaVersion : Option String := none
  bootVersion : Option String := none
deriving DecidableEq, Repr

/-- The `defaultInput` caches held in the `SpecifyGroupIdStep`,
`SpecifyArtifactIdStep` and `SpecifyPackageNameStep` singletons,
written by `setDefaultInput`. -/
structure StepCaches where
  groupIdDefault : Option String := none
  artifactIdDefault : Option String := none
  packageNameDefault : Option String := none
deriving DecidableEq, Repr

/-- Metadata plus the step-singleton caches: the mutable state touched
by a step execution. -/
structure WizardState where
  meta : ProjectMetadata := {}
  caches : StepCaches := {}
deriving DecidableEq, Repr

/-- JavaScript truthiness of an optional string: `undefined`, `null`
and `""` are falsy. -/
def jsTruthy (v : Option String) : Bool :=
  match v with
  | some s => s ≠ ""
  | none => false

/-- JavaScript `a || b` on optional strings. -/
def jsOr (a b : Option String) : Option String :=
  if jsTruthy a then a else b

/-- `projectMetadata.pickSteps.pop()`: removes and returns the last
completed step, `undefined` on an empty stack. -/
def popStep (s : WizardState) : Option StepId × WizardState :=
  ( s.meta.pickSteps.getLast?
  , { s with meta := { s.meta with pickSteps := s.meta.pickSteps.dropLast } } )

/-- `createInputBox` from `handler/utils.ts`.  `input` is what
`window.requestInput` produced (`none` when the prompt was dismissed).
On dismissal the three input steps each throw an
`OperationCanceledError`; on input the corresponding metadata field is
written, the step singleton caches the value via `setDefaultInput`, and
the step is pushed on `pickSteps`. -/
def createInputBox (pickStep : StepId) (input : Option String) (s : WizardState) :
    Except String (Bool × WizardState) :=
  match input with
  | none =>
    if pickStep = .groupId then .error "GroupId not specified."
    else if pickStep = .artifactId then .error "ArtifactId not specified."
    else if pickStep = .packageName then .error "PackageName not specified."
    else .ok (false, s)
  | some value =>
    if pickStep = .groupId then
      .ok (true,
        { s with
          meta := { s.meta with
                      groupId := some value,
                      pickSteps := s.meta.pickSteps ++ [StepId.groupId] },
          caches := { s.caches with groupIdDefault := some value } })
    else if pickStep = .artifactId then
      .ok (true,
        { s with
          meta := { s.meta with
                      artifactId := some value,
                      pickSteps := s.meta.pickSteps ++ [StepId.artifactId] },
          caches := { s.caches with artifactIdDefault := some value } })
    else if pickStep = .packageName then
      .ok (true,
        { s with
          meta := { s.meta with
                      packageName := some value,
                      pickSteps := s.meta.pickSteps ++ [StepId.packageName] },
          caches := { s.caches with packageNameDefault := some value } })
    else .ok (true, s)

/-- A row of a pick box: its label and the optional `value?.id`. -/
structure HandlerItem where
  label : String
  valueId : Option String := none
deriving DecidableEq, Repr

/-- `createPickBox` from `handler/utils.ts`.  `selected` is the quick
pick result (`none` when dismissed).  Dismissal throws for the four
pick steps; a selection writes the corresponding metadata field and
pushes the step on `pickSteps`. -/
def createPickBox (pickStep : StepId) (selected : Option HandlerItem) (s : WizardState) :
    Except String (Bool × WizardState) :=
  match selected with
  | none =>
    if pickStep = .language then .error "Language not specified."
    else if pickStep = .javaVersion then .error "Java version not specified."
    else if pickStep = .packaging then .error "Packaging not specified."
    else if pickStep = .bootVersion then .error "BootVersion not specified."
    else .ok (false, s)
  | some sel =>
    let m := s.meta
    let m :=
      if pickStep = .language then { m with language := some sel.label.toLower }
      else if pickStep = .javaVersion then { m with javaVersion := sel.valueId }
      else if pickStep = .packaging then { m with packaging := some sel.label.toLower }
      else if pickStep = .bootVersion then { m with bootVersion := sel.valueId }
      else m
    .ok (true, { s with meta := { m with pickSteps := m.pickSteps ++ [pickStep] } })

/-- `SpecifyArtifactIdStep.specifyArtifactId`: delegates to
`createInputBox` with the artifact-id step as `pickStep`. -/
def specifyArtifactId (input : Option String) (s : WizardState) :
    Except String (Bool × WizardState) :=
  createInputBox .artifactId input s

/-- `SpecifyArtifactIdStep.execute`: on success return `getNextStep()`
(the package-name step), otherwise pop the navigation stack and return
the popped step. -/
def artifactIdStepExecute (input : Option String) (s : WizardState) :
    Except String (Option StepId × WizardState) :=
  match specifyArtifactId input s with
  | .error e => .error e
  | .ok (true, s1) => .ok (some .packageName, s1)
  | .ok (false, s1) =>
    let p := popStep s1
    .ok (p.1, p.2)

/-- `SpecifyLanguageStep.specifyLanguage`: the caller-supplied default
(`defaults.language`) or the host configuration default short-circuits
the prompt; otherwise `createPickBox` runs. -/
def specifyLanguage (hostDefaultLanguage : Option String) (selected : Option HandlerItem)
    (s : WizardState) : Except String (Bool × WizardState) :=
  let language := jsOr s.meta.defaults.language hostDefaultLanguage
  if jsTruthy language then
    .ok (true, { s with meta := { s.meta with language := language.map String.toLower } })
  else
    createPickBox .language selected s

/-- `SpecifyLanguageStep.execute`. -/
def languageStepExecute (hostDefaultLanguage : Option String) (selected : Option HandlerItem)
    (s : WizardState) : Except String (Option StepId × WizardState) :=
  match specifyLanguage hostDefaultLanguage selected s with
  | .error e => .error e
  | .ok (true, s1) => .ok (some .groupId, s1)
  | .ok (false, s1) =>
    let p := popStep s1
    .ok (p.1, p.2)

/-- `SpecifyPackagingStep.specifyPackaging`: same short-circuit shape as
the language step. -/
def specifyPackaging (hostDefaultPackaging : Option String) (selected : Option HandlerItem)
    (s : WizardState) : Except String (Bool × WizardState) :=
  let packaging := jsOr s.meta.defaults.packaging hostDefaultPackaging
  if jsTruthy packaging then
    .ok (true, { s with meta := { s.meta with packaging := packaging.map String.toLower } })
  else
    createPickBox .packaging selected s

/-- `SpecifyPackagingStep.execute`. -/
def packagingStepExecute (hostDefaultPackaging : Option String) (selected : Option HandlerItem)
    (s : WizardState) : Except String (Option StepId × WizardState) :=
  match specifyPackaging hostDefaultPackaging selected s with
  | .error e => .error e
  | .ok (true, s1) => .ok (some .javaVersion, s1)
  | .ok (false, s1) =>
    let p := popStep s1
    .ok (p.1, p.2)

/-! ## Identifier validation (`src/Utils/index.ts`) -/

/-- Character class `[a-z_]`. -/
def isIdHeadChar (c : Char) : Bool :=
  (97 ≤ c.toNat && c.toNat ≤ 122) || c = '_'

/-- Character class `[a-z0-9_]`. -/
def isIdTailChar (c : Char) : Bool :=
  isIdHeadChar c || (48 ≤ c.toNat && c.toNat ≤ 57)

/-- Splitting a character list on a separator character, with the same
semantics as `String.split` on a one-character separator (an empty
input yields one empty segment, adjacent separators yield empty
segments). -/
def splitOnChar (sep : Char) : List Char → List (List Char)
  | [] => [[]]
  | c :: cs =>
    let r := splitOnChar sep cs
    if c = sep then [] :: r
    else
      match r with
      | [] => [[c]]
      | h :: t => (c :: h) :: t

/-- Matcher for the segment pattern `[a-z_][a-z0-9_]*`. -/
def segHeadOk : List Char → Bool
  | [] => false
  | c :: cs => isIdHeadChar c && cs.all isIdTailChar

/-- Matcher for the segment pattern `[a-z0-9_]+`. -/
def segTailOk : List Char → Bool
  | [] => false
  | cs => cs.all isIdTailChar

/-- The regular expression `^[a-z_][a-z0-9_]*(\.[a-z0-9_]+)*$` used by
`groupIdValidation` and `packageNameValidation`, expressed over the
dot-separated segments of the input. -/
def groupIdRegexTest (value : String) : Bool :=
  match splitOnChar '.' value.toList with
  | [] => false
  | first :: rest => segHeadOk first && rest.all segTailOk

/-- The regular expression `^[a-z_][a-z0-9_]*(-[a-z_][a-z0-9_]*)*$` used
by `artifactIdValidation`, expressed over the dash-separated segments. -/
def artifactIdRegexTest (value : String) : Bool :=
  match splitOnChar '-' value.toList with
  | [] => false
  | first :: rest => segHeadOk first && rest.all segHeadOk

/-- `groupIdValidation`: `none` means the value is well formed. -/
def groupIdValidation (value : String) : Option String :=
  if groupIdRegexTest value then none else some "Invalid Group Id"

/-- `artifactIdValidation`. -/
def artifactIdValidation (value : String) : Option String :=
  if artifactIdRegexTest value then none else some "Invalid Artifact Id"

/-- `packageNameValidation` (same pattern as the group id, different
message and `null` instead of `undefined` on success). -/
def packageNameValidation (value : String) : Option String :=
  if groupIdRegexTest value then none else some "Invalid Package Name"

/-! ## Structural XML patcher (`src/Utils/xml/index.ts`) -/

/-- A `domhandler` node as consumed by `updatePom`: either a text node
or a tag element with a name, children and the `startIndex`/`endIndex`
offsets of its opening `<` and closing `>` in the document text. -/
inductive XNode where
  | text (content : String) (startIndex endIndex : Nat) : XNode
  | element (tagName : String) (startIndex endIndex : Nat) (children : List XNode) : XNode

/-- `isTag` from `domhandler`. -/
def XNode.isTag : XNode → Bool
  | .element _ _ _ _ => true
  | .text _ _ _ => false

/-- The `tagName`/`name` of an element (text nodes have none). -/
def XNode.name : XNode → String
  | .element n _ _ _ => n
  | .text _ _ _ => ""

/-- `startIndex` of a node. -/
def XNode.start : XNode → Nat
  | .element _ a _ _ => a
  | .text _ a _ => a

/-- `endIndex` of a node. -/
def XNode.stop : XNode → Nat
  | .element _ _ b _ => b
  | .text _ _ b => b

/-- The children of a node (`undefined`, hence none, on text nodes). -/
def XNode.childNodes : XNode → List XNode
  | .element _ _ _ cs => cs
  | .text _ _ _ => []

/-- `children.find(node => isTag(node) && node.tagName === tag)`. -/
def findTag (children : List XNode) (tag : String) : Option XNode :=
  children.find? (fun n => n.isTag && n.name == tag)

/-- A single textual insertion (`coc.TextEdit.insert`): insertion
offset into the document and inserted text. -/
structure TextEdit where
  pos : Nat
  newText : String
deriving DecidableEq, Repr

/-- A `coc.WorkspaceEdit`: a map from document uri to its list of text
edits, represented as an association list. -/
structure WorkspaceEdit where
  changes : List (String × List TextEdit)
deriving DecidableEq, Repr

/-- The assignment `edit.changes[uri] = [textEdit]` of
`updateWorkspaceEdit`: it replaces whatever list was previously stored
under that uri. -/
def setChanges (changes : List (String × List TextEdit)) (uri : String)
    (edits : List TextEdit) : List (String × List TextEdit) :=
  if changes.any (fun p => p.1 == uri) then
    changes.map (fun p => if p.1 == uri then (uri, edits) else p)
  else
    changes ++ [(uri, edits)]

/-- Reading `edit.changes[uri]`. -/
def lookupChanges (changes : List (String × List TextEdit)) (uri : String) :
    Option (List TextEdit) :=
  (changes.find? (fun p => p.1 == uri)).map Prod.snd

/-- The whitespace class used by `trim()` and the `^\s+` indentation
regex, for the characters that occur in XML build files. -/
def isJsSpace (c : Char) : Bool :=
  c == ' ' || c == '\t' || c == '\n' || c == '\r'

/-- Offset of the start of the line containing `offset` (the position
with character `0` on that line). -/
def lineStart (doc : List Char) (offset : Nat) : Nat :=
  match (doc.take offset).reverse.findIdx? (fun c => c == '\n') with
  | some k => offset - k
  | none => 0

/-- `getIndentation`: the leading-whitespace match of `^\s+` against
the line content from the line start up to `offset`. -/
def getIndentation (doc : List Char) (offset : Nat) : String :=
  let ls := lineStart doc offset
  let lineContentToPos := (doc.drop ls).take (offset - ls)
  String.mk (lineContentToPos.takeWhile isJsSpace)

/-- An artifact fragment (`IArtifact`). -/
structure IArtifact where
  groupId : String
  artifactId : String
  version : Option String := none
  scope : Option String := none
deriving DecidableEq, Repr

/-- A bill-of-materials fragment (`IBom`). -/
structure IBom where
  groupId : String
  artifactId : String
  version : String
  scope : Option String := none
  type : Option String := none
deriving DecidableEq, Repr

/-- `PomNode.wrapWithParentNode`: opening tag, the lines each indented
once more, closing tag. -/
def wrapWithParentNode (lines : List String) (indent parent : String) : List String :=
  ("<" ++ parent ++ ">") :: lines.map (fun line => indent ++ line) ++ ["</" ++ parent ++ ">"]

/-- The `version && `<version>...`` entry of
`DependencyNodes.toTextLine`: dropped by `.filter(Boolean)` when the
version is `undefined` or the empty string. -/
def versionEntry (a : IArtifact) : Option String :=
  match a.version with
  | some v => if v = "" then none else some ("<version>" ++ v ++ "</version>")
  | none => none

/-- The `scope && scope !== "compile" && `<scope>...`` entry of
`DependencyNodes.toTextLine`: dropped when the scope is `undefined`,
empty, or the default `"compile"` scope. -/
def scopeEntry (a : IArtifact) : Option String :=
  match a.scope with
  | some sc => if sc = "" ∨ sc = "compile" then none else some ("<scope>" ++ sc ++ "</scope>")
  | none => none

/-- The body lines of one dependency fragment before wrapping
(the `lines` array of `DependencyNodes.toTextLine`). -/
def artifactEntryLines (a : IArtifact) : List String :=
  [ some ("<groupId>" ++ a.groupId ++ "</groupId>")
  , some ("<artifactId>" ++ a.artifactId ++ "</artifactId>")
  , versionEntry a
  , scopeEntry a ].reduceOption

/-- `DependencyNodes.toTextLine`: the body lines wrapped in a
`dependency` element. -/
def artifactToTextLine (a : IArtifact) (indent : String) : List String :=
  wrapWithParentNode (artifactEntryLines a) indent "dependency"

/-- `DependencyNodes.getTextLines`: all artifact fragments flattened,
wrapped in a `dependencies` element when `options.initParent` is set. -/
def dependencyNodesTextLines (artifacts : List IArtifact) (initParent : Bool)
    (indent : String) : List String :=
  let listOfLines := artifacts.flatMap (fun a => artifactToTextLine a indent)
  if initParent then wrapWithParentNode listOfLines indent "dependencies" else listOfLines

/-- The body lines of one bom fragment (`BOMNodes.bomToTextLine`):
always all five entries, with fixed `type=pom` and `scope=import`. -/
def bomEntryLines (b : IBom) : List String :=
  [ "<groupId>" ++ b.groupId ++ "</groupId>"
  , "<artifactId>" ++ b.artifactId ++ "</artifactId>"
  , "<version>" ++ b.version ++ "</version>"
  , "<type>pom</type>"
  , "<scope>import</scope>" ]

/-- `BOMNodes.bomToTextLine`: the bom body wrapped in a `dependency`
element. -/
def bomToTextLine (b : IBom) (indent : String) : List String :=
  wrapWithParentNode (bomEntryLines b) indent "dependency"

/-- `BOMNodes.getTextLines`: the flattened bom fragments, successively
wrapped in each tag of `options.parents` (so a later list entry becomes
an outer wrapper). -/
def bomNodesTextLines (boms : List IBom) (parents : List String)
    (indent : String) : List String :=
  parents.foldl (fun lines parent => wrapWithParentNode lines indent parent)
    (boms.flatMap (fun b => bomToTextLine b indent))

/-- The `PomNode` hierarchy: a `DependencyNodes` or `BOMNodes` payload
together with its constructor options. -/
inductive PomNode where
  | dependencyNodes (artifacts : List IArtifact) (initParent : Bool)
  | bomNodes (boms : List IBom) (parents : List String)
deriving DecidableEq, Repr

/-- `PomNode.getTextLines` dispatch. -/
def PomNode.getTextLines : PomNode → String → List String
  | .dependencyNodes artifacts initParent, indent => dependencyNodesTextLines artifacts initParent indent
  | .bomNodes boms parents, indent => bomNodesTextLines boms parents indent

/-- `constructNodeText`: `["", ...lines].join(eol + baseIndent + indent) + eol`. -/
def constructNodeText (nodeToInsert : PomNode) (baseIndent indent eol : String) : String :=
  String.intercalate (eol ++ baseIndent ++ indent) ("" :: nodeToInsert.getTextLines indent) ++ eol

/-- The insertion offset computed by `updateWorkspaceEdit`: just before
the closing tag `</name>` of the parent node, moved to the start of the
line when everything before it on the line is whitespace (the
`contentBefore.trim() === ""` optimization).  Assumes the parsed
offsets are consistent (`endIndex + 1 ≥ name.length + 3`), which holds
for any actual parse. -/
def insertOffsetFor (doc : List Char) (parentNode : XNode) : Nat :=
  let insertOffset := parentNode.stop + 1 - (parentNode.name.length + 3)
  let ls := lineStart doc insertOffset
  let contentBefore := (doc.drop ls).take (insertOffset - ls)
  if contentBefore.all isJsSpace then ls else insertOffset

/-- `updateWorkspaceEdit`: computes the base indentation of the parent
node's opening line, the insertion position, renders the node text, and
stores the single `TextEdit` under the document's uri — overwriting any
edits previously stored there for this document. -/
def updateWorkspaceEdit (edit : WorkspaceEdit) (uri : String) (doc : List Char)
    (parentNode : XNode) (nodeToInsert : PomNode) (indent eol : String) : WorkspaceEdit :=
  let baseIndent := getIndentation doc parentNode.start
  let insertPos := insertOffsetFor doc parentNode
  let targetText := constructNodeText nodeToInsert baseIndent indent eol
  { changes := setChanges edit.changes uri [{ pos := insertPos, newText := targetText }] }

/-- `updatePom`.  `projectNodes` is the result of
`getNodesByTag(content, "project")`; anything but a single root node
raises the `UserError` of `getActiveProjectNode` before any edit is
computed.  `indent` is the editor's indentation unit and `eol` the
platform line ending, both inputs of the model. -/
def updatePom (uri : String) (doc : List Char) (projectNodes : List XNode)
    (deps : List IArtifact) (boms : List IBom) (indent eol : String) :
    Except String WorkspaceEdit :=
  match projectNodes with
  | [projectNode] =>
    let edit0 : WorkspaceEdit := { changes := [] }
    let edit1 :=
      match findTag projectNode.childNodes "dependencies" with
      | some dependenciesNode =>
        updateWorkspaceEdit edit0 uri doc dependenciesNode (.dependencyNodes deps false) indent eol
      | none =>
        updateWorkspaceEdit edit0 uri doc projectNode (.dependencyNodes deps true) indent eol
    let edit2 :=
      if boms.length > 0 then
        match findTag projectNode.childNodes "dependencyManagement" with
        | some depMgmtNode =>
          match findTag depMgmtNode.childNodes "dependencies" with
          | some depsNodes =>
            updateWorkspaceEdit edit1 uri doc depsNodes (.bomNodes boms []) indent eol
          | none =>
            updateWorkspaceEdit edit1 uri doc depMgmtNode (.bomNodes boms ["dependencies"]) indent eol
        | none =>
          updateWorkspaceEdit edit1 uri doc projectNode
            (.bomNodes boms ["dependencies", "dependencyManagement"]) indent eol
      else edit1
    .ok edit2
  | _ => .error "Only support POM file with single <project> node."

/-- Applying one insertion to the document text. -/
def applyTextEdit (doc : List Char) (te : TextEdit) : List Char :=
  doc.take te.pos ++ te.newText.toList ++ doc.drop te.pos

/-- Applying a list of edits in order. -/
def applyEdits (doc : List Char) (edits : List TextEdit) : List Char :=
  edits.foldl applyTextEdit doc

/-- The end-to-end effect of `updatePom` followed by
`workspace.applyEdit` on the target document: the document text is
untouched when `updatePom` throws. -/
def runUpdatePom (uri : String) (doc : List Char) (projectNodes : List XNode)
    (deps : List IArtifact) (boms : List IBom) (indent eol : String) : List Char :=
  match updatePom uri doc projectNodes deps boms indent eol with
  | .error _ => doc
  | .ok e =>
    match lookupChanges e.changes uri with
    | some edits => applyEdits doc edits
    | none => doc

/-! ## Theorems about the dependency selector -/

/-- Helper: toggling preserves freedom from duplicates. -/
theorem toggleDependency_nodup {sel : List String} (h : sel.Nodup) (id : String) :
    (toggleDependency sel id).Nodup := by
  unfold toggleDependency
  by_cases hm : id ∈ sel
  · rw [if_pos hm]
    exact h.filter _
  · rw [if_neg hm]
    simp [List.nodup_append, h, hm]

/-- C7: for every selection state and id, toggling the same id twice
restores the original selection set (same members); a single toggle
appends the id at the end when absent (preserving insertion order) and
filters it out when present. -/
theorem toggleDependency_involutive_on_sets (sel : List String) (id : String) :
    (∀ x, x ∈ toggleDependency (toggleDependency sel id) id ↔ x ∈ sel)
    ∧ (id ∉ sel → toggleDependency sel id = sel ++ [id])
    ∧ (id ∈ sel → toggleDependency sel id = sel.filter (fun x => x ≠ id)) := by
  refine ⟨?_, ?_, ?_⟩
  · intro x
    by_cases h : id ∈ sel
    · have h1 : toggleDependency sel id = sel.filter (fun x => x ≠ id) := by
        simp [toggleDependency, h]
      have h2 : id ∉ sel.filter (fun x => x ≠ id) := by
        simp
      rw [h1, toggleDependency, if_neg h2]
      simp only [List.mem_append, List.mem_filter, List.mem_singleton, decide_eq_true_eq]
      constructor
      · rintro (⟨hx, _⟩ | rfl)
        · exact hx
        · exact h
      · intro hx
        by_cases hxid : x = id
        · exact Or.inr hxid
        · exact Or.inl ⟨hx, hxid⟩
    · have h1 : toggleDependency sel id = sel ++ [id] := by
        simp [toggleDependency, h]
      have h2 : id ∈ sel ++ [id] := by simp
      rw [h1, toggleDependency, if_pos h2]
      have h3 : (sel ++ [id]).filter (fun x => x ≠ id) = sel := by
        rw [List.filter_append]
        have hself : sel.filter (fun x => x ≠ id) = sel :=
          List.filter_eq_self.mpr (fun a ha => by
            simp only [decide_eq_true_eq]
            intro e; exact h (e ▸ ha))
        rw [hself]
        simp
      rw [h3]
  · intro h; simp [toggleDependency, h]
  · intro h; simp [toggleDependency, h]

/-- Witness for C7 at concrete inputs. -/
theorem toggleDependency_involutive_on_sets_witness :
    toggleDependency ["a"] "b" = ["a"] ++ ["b"]
    ∧ toggleDependency ["a", "b"] "a" = List.filter (fun x => x ≠ "a") ["a", "b"]
    ∧ ("b" ∈ toggleDependency (toggleDependency ["a"] "b") "b" ↔ "b" ∈ ["a"]) :=
  ⟨(toggleDependency_involutive_on_sets ["a"] "b").2.1 (by decide),
   (toggleDependency_involutive_on_sets ["a", "b"] "a").2.2 (by decide),
   (toggleDependency_involutive_on_sets ["a"] "b").1 "b"⟩

/-- C10: starting from the empty selection, any sequence of
`toggleDependency` calls leaves `selectedIds` free of duplicates. -/
theorem toggleDependency_sequences_nodup (ids : List String) :
    (ids.foldl toggleDependency []).Nodup := by
  have gen : ∀ (l : List String) (sel : List String), sel.Nodup →
      (l.foldl toggleDependency sel).Nodup := by
    intro l
    induction l with
    | nil => intro sel hs; exact hs
    | cons a t ih => intro sel hs; exact ih _ (toggleDependency_nodup hs a)
  exact gen ids [] List.nodup_nil

/-- C3 counterexample: a catalog with two consecutive unselected entries
of differing group labels ("Core" then "SQL", the group change occurring
after the first element) produces no separator at all in the quick-pick
list; the claimed separator on a consecutive group change never
appears. -/
theorem unselected_grouping_inserts_no_separator_demo :
    (getQuickPickItems ⟨none, [⟨"a", "Web", "Core"⟩, ⟨"b", "JPA", "SQL"⟩], []⟩ true).filter
        (fun it => it.itemType == "separator") = []
    ∧ unselLoop none [⟨"a", "Web", "Core"⟩, ⟨"b", "JPA", "SQL"⟩]
        = [unselItem ⟨"a", "Web", "Core"⟩, unselItem ⟨"b", "JPA", "SQL"⟩]
    ∧ (⟨"a", "Web", "Core"⟩ : IDependency).group ≠ (⟨"b", "JPA", "SQL"⟩ : IDependency).group := by
  refine ⟨by decide, by decide, by decide⟩

/-- C3 amended: the grouping loop over the unselected entries never
inserts a separator for any catalog: its tracking variable starts
unassigned and is only ever assigned inside the branch that requires it
to be already assigned, so the group-change condition never fires and
the loop emits exactly the dependency rows. -/
theorem unselected_grouping_never_separates (l : List IDependency) :
    unselLoop none l = l.map unselItem
    ∧ ∀ it ∈ unselLoop none l, it.itemType = "dependency" := by
  have main : ∀ (l : List IDependency), unselLoop none l = l.map unselItem := by
    intro l
    induction l with
    | nil => rfl
    | cons d t ih => simp [unselLoop, ih]
  refine ⟨main l, ?_⟩
  rw [main l]
  intro it hit
  rw [List.mem_map] at hit
  obtain ⟨d, _, rfl⟩ := hit
  rfl

/-- Witness for C3's amended theorem at a concrete catalog. -/
theorem unselected_grouping_never_separates_witness :
    unselLoop none [⟨"x", "Web", "Core"⟩, ⟨"y", "Mail", "Messaging"⟩]
      = [⟨"x", "Web", "Core"⟩, ⟨"y", "Mail", "Messaging"⟩].map unselItem :=
  (unselected_grouping_never_separates [⟨"x", "Web", "Core"⟩, ⟨"y", "Mail", "Messaging"⟩]).1

/-! ## Theorems about the wizard step chain -/

/-- C1 counterexample: with the GroupId step (and earlier steps) already
completed on the navigation stack, dismissing the ArtifactId prompt does
not return the previous step — `execute` raises the cancellation error
unconditionally. -/
theorem artifactId_dismiss_cancels_despite_stack :
    artifactIdStepExecute none
        { meta := { pickSteps := [StepId.serviceUrl, StepId.bootVersion, StepId.language, StepId.groupId] } }
      = .error "ArtifactId not specified."
    ∧ ([StepId.serviceUrl, StepId.bootVersion, StepId.language, StepId.groupId] ≠ ([] : List StepId)) :=
  ⟨rfl, by decide⟩

/-- C1 amended: for the input steps that require a value (GroupId,
ArtifactId, PackageName), dismissing the prompt always signals
cancellation, whatever the navigation stack holds; the backward
navigation pop after a `false` prompt result is unreachable for them. -/
theorem inputStep_dismiss_always_cancels (s : WizardState) :
    artifactIdStepExecute none s = .error "ArtifactId not specified."
    ∧ createInputBox .groupId none s = .error "GroupId not specified."
    ∧ createInputBox .packageName none s = .error "PackageName not specified." :=
  ⟨rfl, rfl, rfl⟩

/-- C5 counterexample: the Language step with a caller-supplied default
completes (writes the lower-cased language and returns the GroupId step)
without pushing itself on the empty navigation stack. -/
theorem language_default_skips_stack_demo :
    (languageStepExecute none none { meta := { defaults := { language := some "Java" } } }).toOption.map
        (fun r => (r.1, r.2.meta.language.isSome, r.2.meta.pickSteps))
      = some (some StepId.groupId, true, ([] : List StepId)) := by
  rfl

/-- C5 amended: a step that skips prompting because a default is present
(Language and Packaging) completes and moves to its next step with the
navigation stack unchanged — the step does not record itself, so the
stack counts only prompt-completed steps. -/
theorem default_shortcircuit_skips_stack (s : WizardState)
    (hostLang hostPack : Option String) (sel : Option HandlerItem)
    (hl : jsTruthy (jsOr s.meta.defaults.language hostLang) = true)
    (hp : jsTruthy (jsOr s.meta.defaults.packaging hostPack) = true) :
    (∃ s1, languageStepExecute hostLang sel s = .ok (some StepId.groupId, s1)
        ∧ s1.meta.pickSteps = s.meta.pickSteps)
    ∧ (∃ s2, packagingStepExecute hostPack sel s = .ok (some StepId.javaVersion, s2)
        ∧ s2.meta.pickSteps = s.meta.pickSteps) := by
  constructor
  · have e1 : specifyLanguage hostLang sel s
        = .ok (true, { s with meta := { s.meta with
            language := (jsOr s.meta.defaults.language hostLang).map String.toLower } }) := by
      unfold specifyLanguage
      rw [if_pos hl]
    refine ⟨{ s with meta := { s.meta with
        language := (jsOr s.meta.defaults.language hostLang).map String.toLower } }, ?_, rfl⟩
    unfold languageStepExecute
    rw [e1]
  · have e2 : specifyPackaging hostPack sel s
        = .ok (true, { s with meta := { s.meta with
            packaging := (jsOr s.meta.defaults.packaging hostPack).map String.toLower } }) := by
      unfold specifyPackaging
      rw [if_pos hp]
    refine ⟨{ s with meta := { s.meta with
        packaging := (jsOr s.meta.defaults.packaging hostPack).map String.toLower } }, ?_, rfl⟩
    unfold packagingStepExecute
    rw [e2]

/-- Witness for C5's amended theorem: concrete defaults short-circuit
both steps and leave the stack untouched. -/
theorem default_shortcircuit_skips_stack_witness :
    (∃ s1, languageStepExecute none none
          { meta := { defaults := { language := some "java", packaging := some "jar" } } }
        = .ok (some StepId.groupId, s1)
        ∧ s1.meta.pickSteps
            = ({ meta := { defaults := { language := some "java", packaging := some "jar" } } } : WizardState).meta.pickSteps)
    ∧ (∃ s2, packagingStepExecute none none
          { meta := { defaults := { language := some "java", packaging := some "jar" } } }
        = .ok (some StepId.javaVersion, s2)
        ∧ s2.meta.pickSteps
            = ({ meta := { defaults := { language := some "java", packaging := some "jar" } } } : WizardState).meta.pickSteps) :=
  default_shortcircuit_skips_stack
    { meta := { defaults := { language := some "java", packaging := some "jar" } } }
    none none none (by decide) (by decide)

/-- C6 counterexample: "1abc" is rejected by `groupIdValidation`, yet
the GroupId step accepts it: the value is written into the metadata and
the step advances (pushes itself and returns success) — no re-prompt. -/
theorem malformed_groupId_accepted_demo :
    groupIdValidation "1abc" = some "Invalid Group Id"
    ∧ createInputBox .groupId (some "1abc") {}
        = .ok (true,
            { meta := { groupId := some "1abc", pickSteps := [StepId.groupId] },
              caches := { groupIdDefault := some "1abc" } }) :=
  ⟨by decide, rfl⟩

/-- C6 amended: the identifier validators are never consulted by the
input path: any entered value — in particular one the validators
classify as malformed — is written into the descriptor and the step
advances with the value pushed on the stack. -/
theorem malformed_input_not_blocked (s : WizardState) (v w : String)
    (_hv : groupIdValidation v ≠ none) (_hw : artifactIdValidation w ≠ none) :
    (∃ s1, createInputBox .groupId (some v) s = .ok (true, s1)
      ∧ s1.meta.groupId = some v
      ∧ s1.meta.pickSteps = s.meta.pickSteps ++ [StepId.groupId])
    ∧ (∃ s2, createInputBox .artifactId (some w) s = .ok (true, s2)
      ∧ s2.meta.artifactId = some w
      ∧ s2.meta.pickSteps = s.meta.pickSteps ++ [StepId.artifactId]) :=
  ⟨⟨_, rfl, rfl, rfl⟩, ⟨_, rfl, rfl, rfl⟩⟩

/-- Witness for C6's amended theorem on concrete malformed inputs. -/
theorem malformed_input_not_blocked_witness :
    (∃ s1, createInputBox .groupId (some "1abc") {} = .ok (true, s1)
      ∧ s1.meta.groupId = some "1abc"
      ∧ s1.meta.pickSteps = ({} : WizardState).meta.pickSteps ++ [StepId.groupId])
    ∧ (∃ s2, createInputBox .artifactId (some "Abc") {} = .ok (true, s2)
      ∧ s2.meta.artifactId = some "Abc"
      ∧ s2.meta.pickSteps = ({} : WizardState).meta.pickSteps ++ [StepId.artifactId]) :=
  malformed_input_not_blocked {} "1abc" "Abc" (by decide) (by decide)

/-! ## Theorems about the XML patcher -/

/-- Helper: after the assignment `edit.changes[uri] = edits`, reading
`edit.changes[uri]` yields exactly `edits`. -/
theorem lookupChanges_setChanges (changes : List (String × List TextEdit))
    (uri : String) (edits : List TextEdit) :
    lookupChanges (setChanges changes uri edits) uri = some edits := by
  induction changes with
  | nil => simp [setChanges, lookupChanges]
  | cons c t ih =>
    by_cases hc : c.1 = uri
    · simp [setChanges, lookupChanges, hc]
    · have hstep : setChanges (c :: t) uri edits = c :: setChanges t uri edits := by
        by_cases ht : t.any (fun p => p.1 == uri)
        · simp [setChanges, hc, ht]
        · simp [setChanges, hc, ht]
      rw [hstep]
      have hcb : (c.1 == uri) = false := by
        simp [hc]
      simpa [lookupChanges, List.find?, hcb] using ih

/-- C4: when the parsed content does not hold exactly one root
`project` element, `updatePom` fails with the single-project error and
the document text is left unchanged. -/
theorem updatePom_requires_single_project (uri : String) (doc : List Char)
    (projectNodes : List XNode) (deps : List IArtifact) (boms : List IBom)
    (indent eol : String) (h : projectNodes.length ≠ 1) :
    updatePom uri doc projectNodes deps boms indent eol
      = .error "Only support POM file with single <project> node."
    ∧ runUpdatePom uri doc projectNodes deps boms indent eol = doc := by
  match projectNodes, h with
  | [], _ => exact ⟨rfl, rfl⟩
  | [p], h => exact absurd rfl h
  | p :: q :: r, _ => exact ⟨rfl, rfl⟩

/-- Witness for C4 on a document with zero root elements. -/
theorem updatePom_requires_single_project_witness :
    updatePom "pom" [] [] [] [] "  " "\n"
      = .error "Only support POM file with single <project> node."
    ∧ runUpdatePom "pom" [] [] [] [] "  " "\n" = [] :=
  updatePom_requires_single_project "pom" [] [] [] [] "  " "\n" (by decide)

/-- The spec's three-case description of the BOM insertion (refinement
target for C8): which element receives the insertion and, inner first,
which wrapper tags are applied around the bare bom fragments. -/
def bomInsertionCase (projectNode : XNode) : XNode × List String :=
  match findTag projectNode.childNodes "dependencyManagement" with
  | some depMgmtNode =>
    match findTag depMgmtNode.childNodes "dependencies" with
    | some depsNodes => (depsNodes, [])
    | none => (depMgmtNode, ["dependencies"])
  | none => (projectNode, ["dependencies", "dependencyManagement"])

/-- C8: with BOM fragments supplied, the bom edit computed by
`updatePom` targets exactly the element described by the three-case rule
and wraps the fragments to the matching depth: bare before the inner
`dependencies` closing tag when both levels exist, one `dependencies`
wrapper before `dependencyManagement`'s closing tag when only it exists,
and a `dependencyManagement > dependencies` double wrapper before the
root's closing tag when neither exists. -/
theorem updatePom_bom_three_cases (projectNode : XNode) (uri : String) (doc : List Char)
    (deps : List IArtifact) (boms : List IBom) (indent eol : String)
    (hb : boms ≠ []) :
    (∃ e, updatePom uri doc [projectNode] deps boms indent eol = .ok e
      ∧ lookupChanges e.changes uri
          = some [{ pos := insertOffsetFor doc (bomInsertionCase projectNode).1
                  , newText := constructNodeText
                      (.bomNodes boms (bomInsertionCase projectNode).2)
                      (getIndentation doc (bomInsertionCase projectNode).1.start) indent eol }])
    ∧ bomNodesTextLines boms [] indent = boms.flatMap (fun b => bomToTextLine b indent)
    ∧ bomNodesTextLines boms ["dependencies"] indent
        = wrapWithParentNode (boms.flatMap (fun b => bomToTextLine b indent)) indent "dependencies"
    ∧ bomNodesTextLines boms ["dependencies", "dependencyManagement"] indent
        = wrapWithParentNode
            (wrapWithParentNode (boms.flatMap (fun b => bomToTextLine b indent)) indent "dependencies")
            indent "dependencyManagement" := by
  have hb' : 0 < boms.length := List.length_pos.mpr hb
  refine ⟨⟨_, rfl, ?_⟩, rfl, rfl, rfl⟩
  rw [if_pos hb']
  cases hdm : findTag projectNode.childNodes "dependencyManagement" with
  | none =>
    simp only [bomInsertionCase, hdm, updateWorkspaceEdit]
    exact lookupChanges_setChanges _ _ _
  | some depMgmtNode =>
    cases hdd : findTag depMgmtNode.childNodes "dependencies" with
    | none =>
      simp only [bomInsertionCase, hdm, hdd, updateWorkspaceEdit]
      exact lookupChanges_setChanges _ _ _
    | some depsNodes =>
      simp only [bomInsertionCase, hdm, hdd, updateWorkspaceEdit]
      exact lookupChanges_setChanges _ _ _

/-- Witness material for C8: a document whose root holds both a
`dependencyManagement` element and its inner `dependencies` element. -/
def c8Doc : List Char :=
  "<project><dependencyManagement><dependencies></dependencies></dependencyManagement></project>".toList

/-- The parsed root of `c8Doc`. -/
def c8Project : XNode :=
  .element "project" 0 91
    [.element "dependencyManagement" 9 81 [.element "dependencies" 30 58 []]]

/-- A one-element bom list for the C8 witness. -/
def c8Boms : List IBom := [{ groupId := "g", artifactId := "a", version := "1" }]

/-- Witness for C8 at a concrete document (the both-levels-exist case). -/
theorem updatePom_bom_three_cases_witness :
    (∃ e, updatePom "pom" c8Doc [c8Project] [] c8Boms " " "\n" = .ok e
      ∧ lookupChanges e.changes "pom"
          = some [{ pos := insertOffsetFor c8Doc (bomInsertionCase c8Project).1
                  , newText := constructNodeText
                      (.bomNodes c8Boms (bomInsertionCase c8Project).2)
                      (getIndentation c8Doc (bomInsertionCase c8Project).1.start) " " "\n" }])
    ∧ bomNodesTextLines c8Boms [] " " = c8Boms.flatMap (fun b => bomToTextLine b " ")
    ∧ bomNodesTextLines c8Boms ["dependencies"] " "
        = wrapWithParentNode (c8Boms.flatMap (fun b => bomToTextLine b " ")) " " "dependencies"
    ∧ bomNodesTextLines c8Boms ["dependencies", "dependencyManagement"] " "
        = wrapWithParentNode
            (wrapWithParentNode (c8Boms.flatMap (fun b => bomToTextLine b " ")) " " "dependencies")
            " " "dependencyManagement" :=
  updatePom_bom_three_cases c8Project "pom" c8Doc [] c8Boms " " "\n" (by decide)

/-- C9: rendering rules of the fragments.  The body of a dependency
fragment always opens with the groupId and artifactId elements; a
version element appears exactly when `versionEntry` produced one, which
forces a provided non-empty version; a scope element forces a provided
scope different from the default `compile`; and a bom fragment always
renders all five elements with the fixed `type=pom` and `scope=import`
entries. -/
theorem fragment_rendering_rules (a : IArtifact) (b : IBom) (indent : String) :
    artifactEntryLines a
      = ["<groupId>" ++ a.groupId ++ "</groupId>",
         "<artifactId>" ++ a.artifactId ++ "</artifactId>"]
        ++ (versionEntry a).toList ++ (scopeEntry a).toList
    ∧ ("<groupId>" ++ a.groupId ++ "</groupId>") ∈ artifactEntryLines a
    ∧ ("<artifactId>" ++ a.artifactId ++ "</artifactId>") ∈ artifactEntryLines a
    ∧ (∀ l, versionEntry a = some l →
        ∃ v, a.version = some v ∧ v ≠ "" ∧ l = "<version>" ++ v ++ "</version>")
    ∧ (∀ l, scopeEntry a = some l →
        ∃ sc, a.scope = some sc ∧ sc ≠ "" ∧ sc ≠ "compile" ∧ l = "<scope>" ++ sc ++ "</scope>")
    ∧ (a.version = none → versionEntry a = none)
    ∧ (a.scope = none → scopeEntry a = none)
    ∧ bomToTextLine b indent
      = "<dependency>"
          :: (["<groupId>" ++ b.groupId ++ "</groupId>",
               "<artifactId>" ++ b.artifactId ++ "</artifactId>",
               "<version>" ++ b.version ++ "</version>",
               "<type>pom</type>",
               "<scope>import</scope>"].map (fun line => indent ++ line))
          ++ ["</dependency>"] := by
  have base : artifactEntryLines a
      = ["<groupId>" ++ a.groupId ++ "</groupId>",
         "<artifactId>" ++ a.artifactId ++ "</artifactId>"]
        ++ (versionEntry a).toList ++ (scopeEntry a).toList := by
    cases hv : versionEntry a <;> cases hs : scopeEntry a <;>
      simp [artifactEntryLines, hv, hs, List.reduceOption]
  refine ⟨base, ?_, ?_, ?_, ?_, ?_, ?_, rfl⟩
  · rw [base]; simp
  · rw [base]; simp
  · intro l h
    unfold versionEntry at h
    cases hva : a.version with
    | none => rw [hva] at h; exact Option.noConfusion h
    | some v =>
      rw [hva] at h
      dsimp only at h
      by_cases hv : v = ""
      · rw [if_pos hv] at h; exact Option.noConfusion h
      · rw [if_neg hv] at h
        exact ⟨v, rfl, hv, (Option.some.inj h).symm⟩
  · intro l h
    unfold scopeEntry at h
    cases hsa : a.scope with
    | none => rw [hsa] at h; exact Option.noConfusion h
    | some sc =>
      rw [hsa] at h
      dsimp only at h
      by_cases hsc : sc = "" ∨ sc = "compile"
      · rw [if_pos hsc] at h; exact Option.noConfusion h
      · rw [if_neg hsc] at h
        push_neg at hsc
        exact ⟨sc, rfl, hsc.1, hsc.2, (Option.some.inj h).symm⟩
  · intro h; simp [versionEntry, h]
  · intro h; simp [scopeEntry, h]

/-- Witness for C9 at concrete fragments. -/
theorem fragment_rendering_rules_witness :
    artifactEntryLines { groupId := "g", artifactId := "art", version := some "1", scope := some "test" }
      = ["<groupId>" ++ "g" ++ "</groupId>", "<artifactId>" ++ "art" ++ "</artifactId>"]
        ++ (versionEntry { groupId := "g", artifactId := "art", version := some "1", scope := some "test" }).toList
        ++ (scopeEntry { groupId := "g", artifactId := "art", version := some "1", scope := some "test" }).toList
    ∧ (∃ v, ({ groupId := "g", artifactId := "art", version := some "1", scope := some "test" } : IArtifact).version
          = some v ∧ v ≠ "" ∧ "<version>1</version>" = "<version>" ++ v ++ "</version>") :=
  ⟨(fragment_rendering_rules { groupId := "g", artifactId := "art", version := some "1", scope := some "test" }
      { groupId := "x", artifactId := "y", version := "2" } "  ").1,
   (fragment_rendering_rules { groupId := "g", artifactId := "art", version := some "1", scope := some "test" }
      { groupId := "x", artifactId := "y", version := "2" } "  ").2.2.2.1 "<version>1</version>" rfl⟩

/-- The failing document for C2: a root with an existing `dependencies`
element and no `dependencyManagement`. -/
def c2Doc : List Char :=
  "<project>\n  <dependencies>\n  </dependencies>\n</project>\n".toList

/-- The parsed `dependencies` child of `c2Doc` (offsets of its `<` and
final `>` in the text). -/
def c2DependenciesNode : XNode := .element "dependencies" 12 43 [.text "\n  " 26 28]

/-- The parsed root element of `c2Doc`. -/
def c2Project : XNode :=
  .element "project" 0 54 [.text "\n  " 9 11, c2DependenciesNode, .text "\n" 44 44]

/-- The artifact list for the C2 failing input. -/
def c2Deps : List IArtifact := [{ groupId := "com.example", artifactId := "demo-artifact" }]

/-- The bom list for the C2 failing input. -/
def c2Boms : List IBom := [{ groupId := "com.example", artifactId := "demo-bom", version := "1.0.0" }]

/-- The dependency insertion computed by the first
`updateWorkspaceEdit` call on the C2 input. -/
def c2DepText : String :=
  "\n    <dependency>\n      <groupId>com.example</groupId>\n      <artifactId>demo-artifact</artifactId>\n    </dependency>\n"

/-- The bom insertion computed by the second `updateWorkspaceEdit` call
on the C2 input. -/
def c2BomText : String :=
  "\n  <dependencyManagement>\n    <dependencies>\n      <dependency>\n        <groupId>com.example</groupId>\n        <artifactId>demo-bom</artifactId>\n        <version>1.0.0</version>\n        <type>pom</type>\n        <scope>import</scope>\n      </dependency>\n    </dependencies>\n  </dependencyManagement>\n"

set_option maxRecDepth 40000 in
/-- C2: on a document getting both a dependency and a bom insertion,
the dependency edit is first computed and stored, but the bom call then
assigns `changes["pom"]` afresh, so the edit `updatePom` hands to
`applyEdit` holds only the bom fragment: the dependency fragment is
lost instead of being coalesced into the applied edit. -/
theorem updatePom_bom_overwrites_dependency_insert :
    updateWorkspaceEdit { changes := [] } "pom" c2Doc c2DependenciesNode
        (.dependencyNodes c2Deps false) "  " "\n"
      = { changes := [("pom", [{ pos := 27, newText := c2DepText }])] }
    ∧ updatePom "pom" c2Doc [c2Project] c2Deps c2Boms "  " "\n"
      = .ok { changes := [("pom", [{ pos := 45, newText := c2BomText }])] }
    ∧ List.IsInfix "<artifactId>demo-bom</artifactId>".toList c2BomText.toList
    ∧ ¬ List.IsInfix "<artifactId>demo-artifact</artifactId>".toList c2BomText.toList := by
  refine ⟨by decide, rfl, by decide, by decide⟩
